import Mathlib

/-!
Verification of the WBTB alarm scheduler and technique-effectiveness engine
of the lucid-dreamer CLI (src/main.rs), as a shallow embedding in Lean.

Machine integers of the source (`u32`, `u8`) stay well below their overflow
bounds in every operation modelled here (ids and counters only ever grow by
one per stored record), so they are modelled as `Nat`.  The `f32`
`success_rate` is modelled as `ℚ`: every value the source computes is of the
form `s / a * 100` for small naturals.  File-backed persistence is modelled
as the value stored in the file (serde round-trips the JSON document), with
explicit constructors for "file absent" and "file malformed" where the
source branches on those conditions.
-/

namespace LucidDreamer

/-- An alarm definition, mirroring `struct WBTBAlarm` in src/main.rs. -/
structure WBTBAlarm where
  id : Nat
  bedtime : String
  wake_time : String
  awake_minutes : Nat
  enabled : Bool
  last_triggered : Option String
  success : Option Bool
deriving DecidableEq, Repr

/-- The id `set_wbtb_alarm` assigns to the new alarm:
`alarms.last().map_or(1, |a| a.id + 1)` in the source — one more than the id
of the *last* stored alarm, or 1 when the collection is empty. -/
def nextIdAssigned (alarms : List WBTBAlarm) : Nat :=
  match alarms.getLast? with
  | none => 1
  | some a => a.id + 1

/-- Embedding of `set_wbtb_alarm` from src/main.rs, restricted to its effect on the stored
alarm collection: load, compute the id, push the new alarm, save. -/
def set_wbtb_alarm (alarms : List WBTBAlarm) (bedtime wake_time : String)
    (awake_minutes : Nat) : List WBTBAlarm :=
  let id := nextIdAssigned alarms
  alarms ++ [{ id := id, bedtime := bedtime, wake_time := wake_time,
               awake_minutes := awake_minutes, enabled := true,
               last_triggered := none, success := none }]

/-- Modelled from the spec's words ("max existing id + 1"): the maximum id
present in a collection, for comparison with the id the code assigns. -/
def specMaxId (alarms : List WBTBAlarm) : Nat :=
  alarms.foldr (fun a acc => max a.id acc) 0

/-- Outcome of `cancel_alarm`: the alarm collection as persisted afterwards,
whether `save_alarms` was invoked, and the message printed to the user. -/
structure CancelResult where
  alarms : List WBTBAlarm
  saved : Bool
  message : String
deriving DecidableEq, Repr

/-- Message printed by `cancel_alarm` when the id was found. -/
def canceledMsg (id : Nat) : String :=
  "Alarm #" ++ toString id ++ " canceled."

/-- Message printed by `cancel_alarm` when the id was absent. -/
def notFoundMsg (id : Nat) : String :=
  "Alarm #" ++ toString id ++ " not found."

/-- Embedding of `cancel_alarm` from src/main.rs: find the position of the first alarm with
the requested id; if present remove it and save, otherwise print "not found"
and leave the persisted collection untouched.  Both paths return `Ok(())`. -/
def cancel_alarm (alarms : List WBTBAlarm) (id : Nat) : CancelResult :=
  match alarms.findIdx? (fun a => a.id == id) with
  | some index => { alarms := alarms.eraseIdx index, saved := true,
                    message := canceledMsg id }
  | none => { alarms := alarms, saved := false, message := notFoundMsg id }

/-! ### WakeScheduler (`schedule_alarm`)

Instants are naive-UTC points in time at whole-second resolution, counted as
seconds since an arbitrary epoch; `chrono`'s sub-second component only
affects the truncation already reflected in `num_seconds`.  A day is 86400
seconds (naive UTC has no leap transitions), `date_naive` is division by
86400, and `NaiveDate::succ` adds one day. -/

/-- Seconds past midnight denoted by a parsed `%H:%M` wake time. -/
def wakeSecOfDay (h m : Nat) : Nat := h * 3600 + m * 60

/-- The instant `schedule_alarm` targets: today's occurrence of the wake time
when that is strictly in the future, otherwise tomorrow's occurrence. -/
def schedule_target (wakeSec now : Nat) : Nat :=
  let today := now / 86400
  let wake_today := today * 86400 + wakeSec
  if now < wake_today then wake_today
  else (today + 1) * 86400 + wakeSec

/-- The whole-second delay `schedule_alarm` reports and sleeps for:
`(target - now).num_seconds()`. -/
def schedule_delay (wakeSec now : Nat) : Nat :=
  schedule_target wakeSec now - now

/-! ### AlarmSequencer (`trigger_alarm`)

The firing sequence is modelled as the trace of events it emits, in program
order; the awake-countdown thread spawned by `trigger_alarm` runs its own
events in the order listed after the spawn point. -/

/-- Observable events of the alarm firing sequence. -/
inductive AlarmEvent where
  | setFlag (b : Bool)
  | ringMessage
  | alarmSound
  | blink
  | triggeredMessage
  | awakeAnnounce
  | countdownTick (minutesRemaining : Nat)
  | returnMessage
  | returnToSleepCue
deriving DecidableEq, Repr

/-- Events of the spawned awake-countdown thread of `trigger_alarm`: announce
the awake period, tick once per remaining minute (`(1..=awake_minutes).rev()`),
announce return to sleep, play the cue, clear the flag. -/
def awakeThreadEvents (awake_minutes : Nat) : List AlarmEvent :=
  [AlarmEvent.awakeAnnounce] ++
  ((List.range awake_minutes).reverse.map fun k => AlarmEvent.countdownTick (k + 1)) ++
  [AlarmEvent.returnMessage, AlarmEvent.returnToSleepCue, AlarmEvent.setFlag false]

/-- The full event trace of `trigger_alarm`: set the process-wide flag, print
the alarm banner, play the sound, blink ten times, print the trigger message,
then (in the spawned thread) run the countdown and clear the flag. -/
def trigger_alarm_events (awake_minutes : Nat) : List AlarmEvent :=
  [AlarmEvent.setFlag true, AlarmEvent.ringMessage, AlarmEvent.alarmSound] ++
  List.replicate 10 AlarmEvent.blink ++
  [AlarmEvent.triggeredMessage] ++
  awakeThreadEvents awake_minutes

/-- Is this event a write to the process-wide `ALARM_ACTIVE` flag? -/
def isFlagWrite (e : AlarmEvent) : Bool :=
  match e with
  | AlarmEvent.setFlag _ => true
  | _ => false

/-- Is this event a countdown tick of the awake period? -/
def isCountdownTick (e : AlarmEvent) : Bool :=
  match e with
  | AlarmEvent.countdownTick _ => true
  | _ => false

/-- The subtrace of writes to the `ALARM_ACTIVE` flag. -/
def flagWrites (l : List AlarmEvent) : List AlarmEvent :=
  l.filter isFlagWrite

/-! ### PracticeHistoryStore and EffectivenessEngine -/

/-- Embedding of `enum TechniqueOutcome` from src/main.rs. -/
inductive TechniqueOutcome where
  | Unattempted
  | Failed
  | PartialLucid
  | FullLucid (control_level : Nat)
deriving DecidableEq, Repr

/-- Embedding of `struct TechniquePractice` from src/main.rs. -/
structure TechniquePractice where
  technique : String
  date : String
  duration_minutes : Nat
  outcome : TechniqueOutcome
deriving DecidableEq, Repr

/-- Embedding of `struct TechniqueStats` from src/main.rs.  `optimal_conditions` is a
`HashMap<String, f32>` in the source, modelled as an association list. -/
structure TechniqueStats where
  attempts : Nat
  successes : Nat
  last_practiced : String
  success_rate : ℚ
  optimal_conditions : List (String × ℚ)
deriving DecidableEq, Repr

/-- Does this outcome count as a success in the match arm of
`calculate_technique_effectiveness` (`PartialLucid | FullLucid { .. }`)? -/
def isSuccess (o : TechniqueOutcome) : Bool :=
  match o with
  | TechniqueOutcome.PartialLucid => true
  | TechniqueOutcome.FullLucid _ => true
  | _ => false

/-- The stats value `or_insert_with` seeds a fresh entry with: zero counts,
`last_practiced` set to the creating record's date, empty conditions. -/
def initStats (date : String) : TechniqueStats :=
  { attempts := 0, successes := 0, last_practiced := date,
    success_rate := 0, optimal_conditions := [] }

/-- The loop body of `calculate_technique_effectiveness` after the entry has
been obtained: bump `attempts`, bump `successes` on a success outcome, and
recompute `success_rate` (the `attempts > 0` guard mirrors the source). -/
def bumpStats (s : TechniqueStats) (o : TechniqueOutcome) : TechniqueStats :=
  let attempts := s.attempts + 1
  let successes := if isSuccess o then s.successes + 1 else s.successes
  let rate := if 0 < attempts then (successes : ℚ) / (attempts : ℚ) * 100
              else s.success_rate
  { s with attempts := attempts, successes := successes, success_rate := rate }

/-- Model of `HashMap::entry(k).or_insert_with(init)` followed by a mutation `f` of the
entry, on an association-list model of the map: update the first binding of
the key in place, or append a new binding `f init` when the key is absent. -/
def updateAssoc (l : List (String × TechniqueStats)) (k : String)
    (f : TechniqueStats → TechniqueStats) (init : TechniqueStats) :
    List (String × TechniqueStats) :=
  match l with
  | [] => [(k, f init)]
  | (k0, v) :: rest =>
    if k0 = k then (k0, f v) :: rest
    else (k0, v) :: updateAssoc rest k f init

/-- One iteration of the `for practice in history` loop of
`calculate_technique_effectiveness`. -/
def statsStep (stats : List (String × TechniqueStats)) (p : TechniquePractice) :
    List (String × TechniqueStats) :=
  updateAssoc stats p.technique (fun s => bumpStats s p.outcome) (initStats p.date)

/-- The grouping loop of `calculate_technique_effectiveness`, started from an
arbitrary accumulator. -/
def statsFoldFrom (stats : List (String × TechniqueStats))
    (history : List TechniquePractice) : List (String × TechniqueStats) :=
  history.foldl statsStep stats

/-- The grouping loop of `calculate_technique_effectiveness`, started from the
empty map as in the source. -/
def statsFold (history : List TechniquePractice) : List (String × TechniqueStats) :=
  statsFoldFrom [] history

/-- The normalization loop of `calculate_technique_effectiveness`: every
condition value becomes `value / successes * 100`. -/
def normalizeConditions (s : TechniqueStats) : TechniqueStats :=
  { s with optimal_conditions :=
      s.optimal_conditions.map fun cv => (cv.1, cv.2 / (s.successes : ℚ) * 100) }

/-- Embedding of `calculate_technique_effectiveness` from src/main.rs, as a function of the
loaded practice history: group and count, then normalize conditions. -/
def calculate_technique_effectiveness (history : List TechniquePractice) :
    List (String × TechniqueStats) :=
  (statsFold history).map fun ks => (ks.1, normalizeConditions ks.2)

/-- Number of records of technique `t` in the history. -/
def countFor (t : String) (history : List TechniquePractice) : Nat :=
  (history.filter fun p => p.technique == t).length

/-- Number of success-outcome records of technique `t` in the history. -/
def successesFor (t : String) (history : List TechniquePractice) : Nat :=
  (history.filter fun p => p.technique == t && isSuccess p.outcome).length

/-- The evolution of a single technique's entry across the grouping loop:
what `statsFoldFrom` does to the binding of key `t`, extracted from the map. -/
def foldStats (base : Option TechniqueStats) (t : String) :
    List TechniquePractice → Option TechniqueStats
  | [] => base
  | p :: rest =>
    if p.technique = t then
      foldStats (some (bumpStats (base.getD (initStats p.date)) p.outcome)) t rest
    else foldStats base t rest

/-- Would the normalization loop divide a recorded condition value by a zero
`successes` count anywhere in this map? -/
def hasDivByZero (stats : List (String × TechniqueStats)) : Bool :=
  stats.any fun ks => ks.2.successes == 0 && !ks.2.optimal_conditions.isEmpty

/-- Do all entries of the map carry an empty `optimal_conditions`? -/
def allConditionsEmpty (stats : List (String × TechniqueStats)) : Bool :=
  stats.all fun ks => ks.2.optimal_conditions.isEmpty

/-! ### Persistence of the practice history -/

/-- The state of the technique-history file as `load_technique_history`
inspects it: absent, unreadable (an I/O failure while reading), present but
not valid JSON for the record list, or a valid stored record list. -/
inductive StoredDoc where
  | absent
  | unreadable (msg : String)
  | malformed
  | valid (records : List TechniquePractice)
deriving DecidableEq, Repr

/-- Embedding of `load_technique_history` from src/main.rs: empty list when the file is
absent; a propagated error when reading fails; `unwrap_or_else(Vec::new)`
turns a deserialization failure into the empty list. -/
def load_technique_history (doc : StoredDoc) : Except String (List TechniquePractice) :=
  match doc with
  | StoredDoc.absent => Except.ok []
  | StoredDoc.unreadable msg => Except.error msg
  | StoredDoc.malformed => Except.ok []
  | StoredDoc.valid records => Except.ok records

/-- Shorthand for `load_technique_history().unwrap_or_default()` as used by
`record_technique_practice`. -/
def loadOrDefault (doc : StoredDoc) : List TechniquePractice :=
  (load_technique_history doc).toOption.getD []

/-- Embedding of `record_technique_practice` from src/main.rs: load (defaulting to empty),
push one record carrying today's date, and rewrite the whole document. -/
def record_technique_practice (doc : StoredDoc) (technique : String)
    (outcome : TechniqueOutcome) (duration_minutes : Nat) (today : String) :
    StoredDoc :=
  let history := loadOrDefault doc
  StoredDoc.valid (history ++
    [{ technique := technique, date := today,
       duration_minutes := duration_minutes, outcome := outcome }])

/-! ### Concrete values used by witnesses and counterexamples -/

/-- An alarm with id 5, for the id-assignment counterexample. -/
def alarmA : WBTBAlarm :=
  { id := 5, bedtime := "23:00", wake_time := "06:30", awake_minutes := 20,
    enabled := true, last_triggered := none, success := none }

/-- An alarm with id 2, stored after `alarmA` (ids out of order). -/
def alarmB : WBTBAlarm :=
  { id := 2, bedtime := "22:00", wake_time := "05:30", awake_minutes := 30,
    enabled := true, last_triggered := none, success := none }

/-- An alarm with id 7. -/
def alarmC : WBTBAlarm :=
  { id := 7, bedtime := "21:00", wake_time := "04:30", awake_minutes := 25,
    enabled := true, last_triggered := none, success := none }

/-- Two MILD records on successive dates, the later one last in the history:
exposes which record's date the engine keeps in `last_practiced`. -/
def histC3 : List TechniquePractice :=
  [{ technique := "MILD", date := "2024-01-01", duration_minutes := 10,
     outcome := TechniqueOutcome.Failed },
   { technique := "MILD", date := "2024-01-02", duration_minutes := 10,
     outcome := TechniqueOutcome.Failed }]

/-- The spec's success-counting example: Failed, PartialLucid, FullLucid(3),
Unattempted for one technique. -/
def histC4 : List TechniquePractice :=
  [{ technique := "MILD", date := "2024-02-01", duration_minutes := 5,
     outcome := TechniqueOutcome.Failed },
   { technique := "MILD", date := "2024-02-02", duration_minutes := 5,
     outcome := TechniqueOutcome.PartialLucid },
   { technique := "MILD", date := "2024-02-03", duration_minutes := 5,
     outcome := TechniqueOutcome.FullLucid 3 },
   { technique := "MILD", date := "2024-02-04", duration_minutes := 5,
     outcome := TechniqueOutcome.Unattempted }]

/-- A single Failed record: a technique whose `successes` count is zero. -/
def histC5 : List TechniquePractice :=
  [{ technique := "WBTB", date := "2024-03-01", duration_minutes := 15,
     outcome := TechniqueOutcome.Failed }]

-- ===== C6 helpers =====

theorem findIdx_first_match (pre post : List WBTBAlarm) (b : WBTBAlarm) (id : Nat)
    (hb : b.id = id) (hpre : ∀ a ∈ pre, a.id ≠ id) (i : Nat) :
    (pre ++ b :: post).findIdx? (fun a => a.id == id) i = some (i + pre.length) := by
  induction pre generalizing i with
  | nil => simp [List.findIdx?_cons, hb]
  | cons a rest ih =>
    have ha : (a.id == id) = false := by
      simp [hpre a (by simp)]
    rw [List.cons_append, List.findIdx?_cons, ha]
    simp only [Bool.false_eq_true, if_false]
    rw [ih (fun x hx => hpre x (by simp [hx])) (i + 1)]
    simp
    omega

theorem findIdx_no_match (alarms : List WBTBAlarm) (id : Nat)
    (h : ∀ a ∈ alarms, a.id ≠ id) (i : Nat) :
    alarms.findIdx? (fun a => a.id == id) i = none := by
  induction alarms generalizing i with
  | nil => rfl
  | cons a rest ih =>
    have ha : (a.id == id) = false := by
      simp [h a (by simp)]
    rw [List.findIdx?_cons, ha]
    simp only [Bool.false_eq_true, if_false]
    exact ih (fun x hx => h x (by simp [hx])) (i + 1)

theorem eraseIdx_middle (pre post : List WBTBAlarm) (b : WBTBAlarm) :
    (pre ++ b :: post).eraseIdx pre.length = pre ++ post := by
  induction pre with
  | nil => rfl
  | cons a rest ih => simp [List.eraseIdx, ih]

/-- Claim C6: `cancel_alarm` removes only the first alarm whose id matches and
saves; on an absent id it reports "not found", performs no save, and leaves
the collection unchanged, raising no error. -/
theorem C6_cancel (pre post alarms : List WBTBAlarm) (b : WBTBAlarm) (id : Nat) :
    (b.id = id → (∀ a ∈ pre, a.id ≠ id) →
      cancel_alarm (pre ++ b :: post) id =
        { alarms := pre ++ post, saved := true, message := canceledMsg id }) ∧
    ((∀ a ∈ alarms, a.id ≠ id) →
      cancel_alarm alarms id =
        { alarms := alarms, saved := false, message := notFoundMsg id }) := by
  constructor
  · intro hb hpre
    rw [cancel_alarm, findIdx_first_match pre post b id hb hpre 0]
    simp [eraseIdx_middle]
  · intro h
    rw [cancel_alarm, findIdx_no_match alarms id h 0]

/-- Witness for C6. -/
theorem C6_cancel_witness :
    cancel_alarm [alarmA, alarmB, alarmC] 2 =
      { alarms := [alarmA, alarmC], saved := true, message := canceledMsg 2 } ∧
    cancel_alarm [alarmA, alarmC] 2 =
      { alarms := [alarmA, alarmC], saved := false, message := notFoundMsg 2 } :=
  ⟨(C6_cancel [alarmA] [alarmC] [alarmA, alarmC] alarmB 2).1 (by decide) (by decide),
   (C6_cancel [alarmA] [alarmC] [alarmA, alarmC] alarmB 2).2 (by decide)⟩

-- ===== C7 =====

/-- Claim C7: `load_technique_history` returns the empty sequence when the
file is absent and when the stored data fails to deserialize; the only error
it can surface is a propagated read failure, never a parse failure. -/
theorem C7_lenient_load :
    load_technique_history StoredDoc.absent = Except.ok [] ∧
    load_technique_history StoredDoc.malformed = Except.ok [] ∧
    ∀ doc msg, load_technique_history doc = Except.error msg →
      doc = StoredDoc.unreadable msg := by
  refine ⟨rfl, rfl, ?_⟩
  intro doc msg h
  cases doc <;> simp_all [load_technique_history]

/-- Witness for C7. -/
theorem C7_lenient_load_witness :
    load_technique_history StoredDoc.absent = Except.ok [] ∧
    load_technique_history StoredDoc.malformed = Except.ok [] ∧
    StoredDoc.unreadable "disk failure" = StoredDoc.unreadable "disk failure" :=
  ⟨C7_lenient_load.1, C7_lenient_load.2.1,
   C7_lenient_load.2.2 (StoredDoc.unreadable "disk failure") "disk failure" rfl⟩

-- ===== C8 =====

/-- Claim C8: appending a record and loading again yields the prior records
followed by exactly one new record whose every field (technique, date,
duration, outcome with its payload) equals what was appended. -/
theorem C8_roundtrip (doc : StoredDoc) (technique : String)
    (outcome : TechniqueOutcome) (duration_minutes : Nat) (today : String) :
    ∃ p : TechniquePractice,
      load_technique_history
          (record_technique_practice doc technique outcome duration_minutes today) =
        Except.ok (loadOrDefault doc ++ [p]) ∧
      p.technique = technique ∧ p.date = today ∧
      p.duration_minutes = duration_minutes ∧ p.outcome = outcome :=
  ⟨_, rfl, rfl, rfl, rfl, rfl⟩

-- ===== C10 =====

/-- Claim C10: `set_wbtb_alarm` appends exactly one alarm carrying the inputs,
enabled, with no last-trigger and no success value, preserving every prior
alarm unchanged and in order. -/
theorem C10_append_frame (alarms : List WBTBAlarm) (bedtime wake_time : String)
    (awake_minutes : Nat) :
    ∃ a : WBTBAlarm,
      set_wbtb_alarm alarms bedtime wake_time awake_minutes = alarms ++ [a] ∧
      a.bedtime = bedtime ∧ a.wake_time = wake_time ∧
      a.awake_minutes = awake_minutes ∧ a.enabled = true ∧
      a.last_triggered = none ∧ a.success = none :=
  ⟨_, rfl, rfl, rfl, rfl, rfl, rfl, rfl⟩

-- ===== C9 =====

theorem ticks_no_flagWrite (n : Nat) :
    flagWrites ((List.range n).reverse.map fun k => AlarmEvent.countdownTick (k + 1)) = [] := by
  rw [flagWrites, List.filter_eq_nil_iff]
  intro e he
  obtain ⟨k, _, rfl⟩ := List.mem_map.mp he
  simp [isFlagWrite]

theorem trigger_events_shape (n : Nat) :
    trigger_alarm_events n =
      ([AlarmEvent.setFlag true, AlarmEvent.ringMessage, AlarmEvent.alarmSound] ++
        List.replicate 10 AlarmEvent.blink ++ [AlarmEvent.triggeredMessage] ++
        [AlarmEvent.awakeAnnounce] ++
        ((List.range n).reverse.map fun k => AlarmEvent.countdownTick (k + 1)) ++
        [AlarmEvent.returnMessage]) ++ [AlarmEvent.returnToSleepCue] ++
      [AlarmEvent.setFlag false] := by
  simp [trigger_alarm_events, awakeThreadEvents]

/-- Claim C9: in the firing sequence the flag is set true first (before the
countdown), cleared only as the final step after the countdown and the
return-to-sleep cue, and no other step writes the flag. -/
theorem C9_flag_ordering (awake_minutes : Nat) :
    flagWrites (trigger_alarm_events awake_minutes) =
      [AlarmEvent.setFlag true, AlarmEvent.setFlag false] ∧
    (trigger_alarm_events awake_minutes).head? = some (AlarmEvent.setFlag true) ∧
    (trigger_alarm_events awake_minutes).getLast? = some (AlarmEvent.setFlag false) ∧
    (trigger_alarm_events awake_minutes).dropLast.getLast? =
      some AlarmEvent.returnToSleepCue := by
  refine ⟨?_, rfl, ?_, ?_⟩
  · have h1 : List.filter isFlagWrite (List.replicate 10 AlarmEvent.blink) = [] := by decide
    have h2 := ticks_no_flagWrite awake_minutes
    rw [flagWrites] at h2 ⊢
    rw [trigger_alarm_events, awakeThreadEvents]
    simp [List.filter_append, h1, h2, List.filter_cons, isFlagWrite]
  · rw [trigger_events_shape]
    exact List.getLast?_concat _
  · rw [trigger_events_shape, List.dropLast_concat]
    exact List.getLast?_concat _

-- ===== stats fold helpers =====

theorem lookup_updateAssoc_self (l : List (String × TechniqueStats)) (k : String)
    (f : TechniqueStats → TechniqueStats) (init : TechniqueStats) :
    (updateAssoc l k f init).lookup k = some (f ((l.lookup k).getD init)) := by
  induction l with
  | nil => simp [updateAssoc, List.lookup]
  | cons kv rest ih =>
    obtain ⟨k0, v⟩ := kv
    by_cases hk : k0 = k
    · subst hk
      simp [updateAssoc, List.lookup]
    · rw [updateAssoc, if_neg hk]
      have hne : (k == k0) = false := by
        simp [Ne.symm hk]
      simp [List.lookup, hne, ih]

theorem lookup_updateAssoc_ne (l : List (String × TechniqueStats)) (k t : String)
    (f : TechniqueStats → TechniqueStats) (init : TechniqueStats) (h : t ≠ k) :
    (updateAssoc l k f init).lookup t = l.lookup t := by
  have hne0 : (t == k) = false := by simp [h]
  induction l with
  | nil => simp [updateAssoc, List.lookup, hne0]
  | cons kv rest ih =>
    obtain ⟨k0, v⟩ := kv
    by_cases hk : k0 = k
    · subst hk
      have hne : (t == k0) = false := by simp [h]
      simp [updateAssoc, List.lookup, hne]
    · rw [updateAssoc, if_neg hk]
      by_cases ht : t = k0
      · subst ht
        simp [List.lookup]
      · have hne : (t == k0) = false := by simp [ht]
        simp [List.lookup, hne, ih]

theorem countFor_cons_pos (t : String) (p : TechniquePractice)
    (rest : List TechniquePractice) (hp : p.technique = t) :
    countFor t (p :: rest) = countFor t rest + 1 := by
  simp [countFor, List.filter_cons, hp]

theorem countFor_cons_neg (t : String) (p : TechniquePractice)
    (rest : List TechniquePractice) (hp : ¬ p.technique = t) :
    countFor t (p :: rest) = countFor t rest := by
  simp [countFor, List.filter_cons, hp]

theorem successesFor_cons_pos (t : String) (p : TechniquePractice)
    (rest : List TechniquePractice) (hp : p.technique = t) :
    successesFor t (p :: rest) =
      successesFor t rest + (if isSuccess p.outcome then 1 else 0) := by
  by_cases ho : isSuccess p.outcome <;>
    simp [successesFor, List.filter_cons, hp, ho]

theorem successesFor_cons_neg (t : String) (p : TechniquePractice)
    (rest : List TechniquePractice) (hp : ¬ p.technique = t) :
    successesFor t (p :: rest) = successesFor t rest := by
  simp [successesFor, List.filter_cons, hp]

theorem bumpStats_attempts (s : TechniqueStats) (o : TechniqueOutcome) :
    (bumpStats s o).attempts = s.attempts + 1 := rfl

theorem bumpStats_successes (s : TechniqueStats) (o : TechniqueOutcome) :
    (bumpStats s o).successes = s.successes + (if isSuccess o then 1 else 0) := by
  by_cases ho : isSuccess o <;> simp [bumpStats, ho]

theorem bumpStats_last (s : TechniqueStats) (o : TechniqueOutcome) :
    (bumpStats s o).last_practiced = s.last_practiced := rfl

theorem bumpStats_conditions (s : TechniqueStats) (o : TechniqueOutcome) :
    (bumpStats s o).optimal_conditions = s.optimal_conditions := rfl

theorem bumpStats_rate (s : TechniqueStats) (o : TechniqueOutcome) :
    (bumpStats s o).success_rate =
      ((bumpStats s o).successes : ℚ) / ((bumpStats s o).attempts : ℚ) * 100 := by
  simp [bumpStats]

theorem foldStats_some (history : List TechniquePractice) (t : String)
    (s : TechniqueStats) :
    ∃ s2, foldStats (some s) t history = some s2 ∧
      s2.attempts = s.attempts + countFor t history ∧
      s2.successes = s.successes + successesFor t history ∧
      s2.last_practiced = s.last_practiced ∧
      s2.optimal_conditions = s.optimal_conditions ∧
      (countFor t history = 0 → s2 = s) ∧
      (0 < countFor t history →
        s2.success_rate = (s2.successes : ℚ) / (s2.attempts : ℚ) * 100) := by
  induction history generalizing s with
  | nil =>
    exact ⟨s, rfl, by simp [countFor], by simp [successesFor], rfl, rfl,
      fun _ => rfl, by simp [countFor]⟩
  | cons p rest ih =>
    by_cases hp : p.technique = t
    · obtain ⟨s2, h1, h2, h3, h4, h5, h6, h7⟩ := ih (bumpStats s p.outcome)
      have hstep : foldStats (some s) t (p :: rest) =
          foldStats (some (bumpStats s p.outcome)) t rest := by
        simp [foldStats, hp]
      refine ⟨s2, hstep.trans h1, ?_, ?_, ?_, ?_, ?_, ?_⟩
      · rw [h2, bumpStats_attempts, countFor_cons_pos t p rest hp]
        omega
      · rw [h3, bumpStats_successes, successesFor_cons_pos t p rest hp]
        omega
      · rw [h4, bumpStats_last]
      · rw [h5, bumpStats_conditions]
      · intro hc
        rw [countFor_cons_pos t p rest hp] at hc
        omega
      · intro _
        by_cases hr : countFor t rest = 0
        · rw [h6 hr]
          exact bumpStats_rate s p.outcome
        · exact h7 (Nat.pos_of_ne_zero hr)
    · obtain ⟨s2, h1, h2, h3, h4, h5, h6, h7⟩ := ih s
      have hstep : foldStats (some s) t (p :: rest) = foldStats (some s) t rest := by
        simp [foldStats, hp]
      rw [countFor_cons_neg t p rest hp, successesFor_cons_neg t p rest hp]
      exact ⟨s2, hstep.trans h1, h2, h3, h4, h5, h6, h7⟩

theorem foldStats_fresh (history : List TechniquePractice) (t : String)
    (p0 : TechniquePractice)
    (h : (history.filter fun p => p.technique == t).head? = some p0) :
    ∃ s2, foldStats none t history = some s2 ∧
      s2.attempts = countFor t history ∧
      s2.successes = successesFor t history ∧
      s2.last_practiced = p0.date ∧
      s2.optimal_conditions = [] ∧
      s2.success_rate = (s2.successes : ℚ) / (s2.attempts : ℚ) * 100 := by
  induction history with
  | nil => simp at h
  | cons p rest ih =>
    by_cases hp : p.technique = t
    · have hp0 : p = p0 := by
        rw [List.filter_cons] at h
        simp [hp] at h
        exact h
      subst hp0
      obtain ⟨s2, h1, h2, h3, h4, h5, h6, h7⟩ :=
        foldStats_some rest t (bumpStats (initStats p.date) p.outcome)
      have hstep : foldStats none t (p :: rest) =
          foldStats (some (bumpStats (initStats p.date) p.outcome)) t rest := by
        simp [foldStats, hp]
      refine ⟨s2, hstep.trans h1, ?_, ?_, ?_, ?_, ?_⟩
      · rw [h2, bumpStats_attempts, countFor_cons_pos t p rest hp]
        simp [initStats]
        omega
      · rw [h3, bumpStats_successes, successesFor_cons_pos t p rest hp]
        simp [initStats]
        omega
      · rw [h4, bumpStats_last]
        rfl
      · rw [h5, bumpStats_conditions]
        rfl
      · by_cases hr : countFor t rest = 0
        · rw [h6 hr]
          exact bumpStats_rate (initStats p.date) p.outcome
        · exact h7 (Nat.pos_of_ne_zero hr)
    · have hrest : (rest.filter fun q => q.technique == t).head? = some p0 := by
        rw [List.filter_cons] at h
        simpa [hp] using h
      obtain ⟨s2, h1, ha, hs, hl, hc, hr⟩ := ih hrest
      have hstep : foldStats none t (p :: rest) = foldStats none t rest := by
        simp [foldStats, hp]
      rw [countFor_cons_neg t p rest hp, successesFor_cons_neg t p rest hp]
      exact ⟨s2, hstep.trans h1, ha, hs, hl, hc, hr⟩

theorem lookup_statsFoldFrom (history : List TechniquePractice)
    (stats : List (String × TechniqueStats)) (t : String) :
    (statsFoldFrom stats history).lookup t = foldStats (stats.lookup t) t history := by
  induction history generalizing stats with
  | nil => rfl
  | cons p rest ih =>
    have hfold : statsFoldFrom stats (p :: rest) = statsFoldFrom (statsStep stats p) rest := rfl
    rw [hfold, ih]
    by_cases hp : p.technique = t
    · subst hp
      rw [statsStep, lookup_updateAssoc_self]
      simp [foldStats]
    · have hne : (statsStep stats p).lookup t = stats.lookup t := by
        rw [statsStep]
        exact lookup_updateAssoc_ne stats p.technique t _ _ (fun he => hp he.symm)
      rw [hne]
      simp [foldStats, hp]

theorem lookup_map_normalize (l : List (String × TechniqueStats)) (t : String) :
    (l.map fun ks => (ks.1, normalizeConditions ks.2)).lookup t =
      (l.lookup t).map normalizeConditions := by
  induction l with
  | nil => rfl
  | cons kv rest ih =>
    obtain ⟨k0, v⟩ := kv
    by_cases hk : t = k0
    · subst hk
      simp [List.lookup]
    · have hne : (t == k0) = false := by simp [hk]
      simp [List.lookup, hne, ih]

theorem normalizeConditions_of_empty (s : TechniqueStats)
    (hs : s.optimal_conditions = []) : normalizeConditions s = s := by
  cases s
  simp_all [normalizeConditions]

theorem updateAssoc_conditions (l : List (String × TechniqueStats)) (k : String)
    (f : TechniqueStats → TechniqueStats) (init : TechniqueStats)
    (hl : ∀ ks ∈ l, ks.2.optimal_conditions = [])
    (hinit : (f init).optimal_conditions = [])
    (hf : ∀ s, s.optimal_conditions = [] → (f s).optimal_conditions = []) :
    ∀ ks ∈ updateAssoc l k f init, ks.2.optimal_conditions = [] := by
  induction l with
  | nil =>
    intro ks hks
    simp [updateAssoc] at hks
    subst hks
    exact hinit
  | cons kv rest ih =>
    obtain ⟨k0, v⟩ := kv
    intro ks hks
    rw [updateAssoc] at hks
    by_cases hk : k0 = k
    · rw [if_pos hk] at hks
      rcases List.mem_cons.mp hks with rfl | hmem
      · exact hf v (hl (k0, v) (by simp))
      · exact hl ks (by simp [hmem])
    · rw [if_neg hk] at hks
      rcases List.mem_cons.mp hks with rfl | hmem
      · exact hl (k0, v) (by simp)
      · exact ih (fun x hx => hl x (by simp [hx])) ks hmem

theorem statsFoldFrom_conditions (history : List TechniquePractice)
    (stats : List (String × TechniqueStats))
    (h : ∀ ks ∈ stats, ks.2.optimal_conditions = []) :
    ∀ ks ∈ statsFoldFrom stats history, ks.2.optimal_conditions = [] := by
  induction history generalizing stats with
  | nil => exact h
  | cons p rest ih =>
    exact ih (statsStep stats p)
      (updateAssoc_conditions stats p.technique _ _ h
        (by simp [bumpStats, initStats])
        (fun s hs => by simp [bumpStats, hs]))

-- ===== C5 =====

/-- Claim C5: the normalization pass never divides a condition value by a
zero successes count on any history (no entry ever carries a recorded
condition value), and the output mapping carries no condition entries at
all, hence no NaN or undefined values. -/
theorem C5_no_div_by_zero (history : List TechniquePractice) :
    hasDivByZero (statsFold history) = false ∧
    allConditionsEmpty (calculate_technique_effectiveness history) = true := by
  have hinv := statsFoldFrom_conditions history [] (by simp)
  constructor
  · rw [statsFold, hasDivByZero, List.any_eq_false]
    intro ks hks
    simp [hinv ks hks]
  · rw [allConditionsEmpty, List.all_eq_true]
    intro ks hks
    rw [calculate_technique_effectiveness] at hks
    obtain ⟨ks0, hks0, rfl⟩ := List.mem_map.mp hks
    rw [statsFold] at hks0
    simp [normalizeConditions_of_empty ks0.2 (hinv ks0 hks0)]
    exact hinv ks0 hks0

-- ===== C4 =====

/-- Claim C4: for a technique appearing in the history, attempts counts all
of its records, successes counts exactly the PartialLucid and FullLucid
records, and success_rate is successes/attempts x 100. -/
theorem C4_success_counting (history : List TechniquePractice) (t : String)
    (p0 : TechniquePractice)
    (h : (history.filter fun p => p.technique == t).head? = some p0) :
    ∃ s, (calculate_technique_effectiveness history).lookup t = some s ∧
      s.attempts = countFor t history ∧
      s.successes = successesFor t history ∧
      s.success_rate = (s.successes : ℚ) / (s.attempts : ℚ) * 100 := by
  obtain ⟨s, h1, h2, h3, _, h5, h6⟩ := foldStats_fresh history t p0 h
  have hl : (statsFold history).lookup t = some s := by
    rw [statsFold, lookup_statsFoldFrom]
    exact h1
  have hcalc : (calculate_technique_effectiveness history).lookup t =
      some (normalizeConditions s) := by
    rw [calculate_technique_effectiveness, lookup_map_normalize, hl]
    rfl
  rw [normalizeConditions_of_empty s h5] at hcalc
  exact ⟨s, hcalc, h2, h3, h6⟩

/-- Witness for C4: the spec example Failed, PartialLucid, FullLucid(3),
Unattempted yields attempts 4, successes 2, success rate 50. -/
theorem C4_success_counting_witness :
    ∃ s, (calculate_technique_effectiveness histC4).lookup "MILD" = some s ∧
      s.attempts = 4 ∧ s.successes = 2 ∧ s.success_rate = 50 := by
  obtain ⟨s, hs, ha, hsu, hr⟩ := C4_success_counting histC4 "MILD"
    { technique := "MILD", date := "2024-02-01", duration_minutes := 5,
      outcome := TechniqueOutcome.Failed } (by decide)
  have ha4 : s.attempts = 4 := by
    rw [ha]
    decide
  have hs2 : s.successes = 2 := by
    rw [hsu]
    decide
  rw [ha4, hs2] at hr
  norm_num at hr
  exact ⟨s, hs, ha4, hs2, hr⟩

-- ===== C3 =====

/-- Claim C3 amended: last_practiced is the date of the first record visited
for the technique in iteration order (the record that created the entry),
not the last. -/
theorem C3_last_practiced (history : List TechniquePractice) (t : String)
    (p0 : TechniquePractice)
    (h : (history.filter fun p => p.technique == t).head? = some p0) :
    ∃ s, (calculate_technique_effectiveness history).lookup t = some s ∧
      s.last_practiced = p0.date := by
  obtain ⟨s, h1, _, _, h4, h5, _⟩ := foldStats_fresh history t p0 h
  have hl : (statsFold history).lookup t = some s := by
    rw [statsFold, lookup_statsFoldFrom]
    exact h1
  have hcalc : (calculate_technique_effectiveness history).lookup t =
      some (normalizeConditions s) := by
    rw [calculate_technique_effectiveness, lookup_map_normalize, hl]
    rfl
  rw [normalizeConditions_of_empty s h5] at hcalc
  exact ⟨s, hcalc, h4⟩

/-- Counterexample to claim C3 as stated: with two MILD records in date
order, the engine keeps the first record's date, not the date of the final
record visited. -/
theorem C3_counterexample :
    ((calculate_technique_effectiveness histC3).lookup "MILD").map
        TechniqueStats.last_practiced = some "2024-01-01" ∧
    (histC3.getLast?).map TechniquePractice.date = some "2024-01-02" ∧
    ("2024-01-01" : String) ≠ "2024-01-02" := by
  refine ⟨by decide, by decide, by decide⟩

/-- Witness for C3 amended. -/
theorem C3_last_practiced_witness :
    ∃ s, (calculate_technique_effectiveness histC3).lookup "MILD" = some s ∧
      s.last_practiced = "2024-01-01" := by
  obtain ⟨s, hs, hl⟩ := C3_last_practiced histC3 "MILD"
    { technique := "MILD", date := "2024-01-01", duration_minutes := 10,
      outcome := TechniqueOutcome.Failed } (by decide)
  exact ⟨s, hs, hl⟩


-- ===== helper lemmas =====

theorem specMaxId_cons (x : WBTBAlarm) (rest : List WBTBAlarm) :
    specMaxId (x :: rest) = max x.id (specMaxId rest) := rfl

theorem specMaxId_ge (l : List WBTBAlarm) (b : WBTBAlarm) (hb : b ∈ l) :
    b.id ≤ specMaxId l := by
  induction l with
  | nil => simp at hb
  | cons x rest ih =>
    rw [specMaxId_cons]
    rcases List.mem_cons.mp hb with rfl | hb2
    · exact le_max_left _ _
    · exact le_trans (ih hb2) (le_max_right _ _)

theorem specMaxId_le (l : List WBTBAlarm) (n : Nat) (h : ∀ b ∈ l, b.id ≤ n) :
    specMaxId l ≤ n := by
  induction l with
  | nil => simp [specMaxId]
  | cons x rest ih =>
    rw [specMaxId_cons]
    exact max_le (h x (by simp)) (ih fun b hb => h b (by simp [hb]))

theorem specMaxId_eq_last (alarms : List WBTBAlarm) (a : WBTBAlarm)
    (hlast : alarms.getLast? = some a) (hmax : ∀ b ∈ alarms, b.id ≤ a.id) :
    specMaxId alarms = a.id := by
  have hmem : a ∈ alarms := by
    obtain ⟨hne, ha⟩ := List.mem_getLast?_eq_getLast (Option.mem_def.mpr hlast)
    exact ha ▸ List.getLast_mem hne
  exact le_antisymm (specMaxId_le alarms a.id hmax) (specMaxId_ge alarms a hmem)

-- ===== C1 =====

/-- Claim C1 counterexample. -/
theorem C1_counterexample :
    (set_wbtb_alarm [alarmA, alarmB] "23:00" "06:30" 20).map WBTBAlarm.id = [5, 2, 3] ∧
    specMaxId [alarmA, alarmB] + 1 = 6 ∧ (3 : Nat) ≠ 6 := by decide

/-- Claim C1 amended. -/
theorem C1_next_id (alarms : List WBTBAlarm) (bedtime wake_time : String)
    (awake_minutes : Nat) :
    (alarms = [] →
      (set_wbtb_alarm alarms bedtime wake_time awake_minutes).getLast?.map WBTBAlarm.id = some 1) ∧
    (∀ a, alarms.getLast? = some a →
      (set_wbtb_alarm alarms bedtime wake_time awake_minutes).getLast?.map WBTBAlarm.id = some (a.id + 1) ∧
      ((∀ b ∈ alarms, b.id ≤ a.id) →
        (set_wbtb_alarm alarms bedtime wake_time awake_minutes).getLast?.map WBTBAlarm.id = some (specMaxId alarms + 1))) := by
  have hlast : ∀ bt wt am, (set_wbtb_alarm alarms bt wt am).getLast?.map WBTBAlarm.id =
      some (nextIdAssigned alarms) := by
    intro bt wt am
    rw [set_wbtb_alarm]
    simp [List.getLast?_concat]
  constructor
  · intro he
    rw [hlast, he]
    rfl
  · intro a ha
    constructor
    · rw [hlast, nextIdAssigned, ha]
    · intro hmax
      rw [hlast, nextIdAssigned, ha, specMaxId_eq_last alarms a ha hmax]

/-- Witness for C1. -/
theorem C1_next_id_witness :
    (set_wbtb_alarm [] "23:00" "06:30" 20).getLast?.map WBTBAlarm.id = some 1 ∧
    (set_wbtb_alarm [alarmB, alarmC] "23:00" "06:30" 20).getLast?.map WBTBAlarm.id = some (alarmC.id + 1) ∧
    (set_wbtb_alarm [alarmB, alarmC] "23:00" "06:30" 20).getLast?.map WBTBAlarm.id = some (specMaxId [alarmB, alarmC] + 1) := by
  refine ⟨(C1_next_id [] "23:00" "06:30" 20).1 rfl, ?_, ?_⟩
  · exact ((C1_next_id [alarmB, alarmC] "23:00" "06:30" 20).2 alarmC (by decide)).1
  · exact ((C1_next_id [alarmB, alarmC] "23:00" "06:30" 20).2 alarmC (by decide)).2 (by decide)

-- ===== C2 =====

/-- Claim C2. -/
theorem C2_rollover (h m now : Nat) (_hh : h < 24) (_hm : m < 60) :
    (now < (now / 86400) * 86400 + wakeSecOfDay h m →
      schedule_target (wakeSecOfDay h m) now = (now / 86400) * 86400 + wakeSecOfDay h m) ∧
    ((now / 86400) * 86400 + wakeSecOfDay h m ≤ now →
      schedule_target (wakeSecOfDay h m) now = ((now / 86400) * 86400 + wakeSecOfDay h m) + 86400) ∧
    (now < (now / 86400) * 86400 + wakeSecOfDay h m ↔ now % 86400 < wakeSecOfDay h m) ∧
    schedule_delay (wakeSecOfDay h m) now = schedule_target (wakeSecOfDay h m) now - now := by
  refine ⟨?_, ?_, ?_, rfl⟩
  · intro hlt
    simp [schedule_target, hlt]
  · intro hle
    simp [schedule_target, Nat.not_lt.mpr hle]
    omega
  · omega

/-- Witness for C2. -/
theorem C2_rollover_witness :
    schedule_target (wakeSecOfDay 6 30) 79200 = (79200 / 86400) * 86400 + wakeSecOfDay 6 30 + 86400 ∧
    schedule_delay (wakeSecOfDay 6 30) 79200 = 30600 ∧
    schedule_delay (wakeSecOfDay 6 30) 25200 = 84600 := by
  have h1 := (C2_rollover 6 30 79200 (by decide) (by decide)).2.1 (by decide)
  have h2 := (C2_rollover 6 30 25200 (by decide) (by decide)).2.1 (by decide)
  refine ⟨h1, ?_, ?_⟩
  · rw [schedule_delay, h1]
    decide
  · rw [schedule_delay, h2]
    decide

end LucidDreamer
